import Mathlib

/-!
# Verification of the lyric-synchronization engine of `music_player.py`

A shallow embedding of the synchronization engine of the repository's
`music_player.py` (class `MusicPlayer`): the LRC caption parser
(`parse_lrc`), the playback-position query (`get_play_time`), the
play/pause/stop transitions, and the tick-resolution loop
(`update_loop`), together with theorems settling the frozen claims
about them.

Modelling conventions:
* Python `float` second values are modelled as `ℚ` (the concrete values
  occurring in the program — millisecond reports divided by 1000, the
  `0.1` tolerance — are exact decimals, so rational arithmetic coincides
  with the float arithmetic on every input considered here).
* `pygame.mixer.music.get_pos()` is an external player query returning an
  integer millisecond count (negative when the player has no position to
  report, e.g. after `stop`); it is passed to each embedded operation as
  an explicit `pos : ℤ` input.  Likewise `time.time()` is passed as
  `now : ℚ`.
* Python's regex `\d` is modelled as the ASCII digits `'0'..'9'` and
  `str.strip` as removal of leading/trailing whitespace characters;
  the caption sources considered are ASCII, where both coincide with
  Python's Unicode-aware versions.
-/

namespace MusicPlayer

/-- A timed caption entry `(t, text)` exactly as `parse_lrc` builds it:
offset in seconds paired with the caption text. -/
abbrev Entry : Type := ℚ × String

/-! ## `parse_lrc` — the caption parser

Source (`music_player.py`, lines 96–110):
```
pattern = re.compile(r'\[(\d+):(\d+)(?:\.(\d+))?\](.*)')
entries = []
with open(path, encoding='utf-8', errors='ignore') as f:
    for line in f:
        line = line.strip()
        for match in pattern.finditer(line):
            mm = int(match.group(1))
            ss = int(match.group(2))
            ms = int(match.group(3) or 0)
            text = match.group(4).strip()
            t = mm*60 + ss + ms/1000.0
            entries.append((t, text))
entries.sort(key=lambda x: x[0])
return entries
```
The file is modelled as the list of its lines (`List String`); I/O
failure on `open` is the only failure path of the Python function and is
outside the embedding.
-/

/-- Python `str.strip()` on a character list: drop leading and trailing
whitespace. -/
def pyStrip (cs : List Char) : List Char :=
  ((cs.dropWhile Char.isWhitespace).reverse.dropWhile Char.isWhitespace).reverse

/-- Maximal digit prefix and the remainder — the action of a greedy `\d+`
(greediness is equivalent to the regex's backtracking here because every
character that may legally follow the group — `:`, `.`, `]` — is not a
digit). -/
def takeDigits (cs : List Char) : List Char × List Char :=
  (cs.takeWhile Char.isDigit, cs.dropWhile Char.isDigit)

/-- Python `int()` on a non-empty digit string. -/
def digitsToNat (ds : List Char) : ℕ :=
  ds.foldl (fun n c => 10 * n + (c.toNat - '0'.toNat)) 0

/-- One attempt of the regex `\[(\d+):(\d+)(?:\.(\d+))?\](.*)` anchored at
the head of `cs`.  On success returns `(mm, ss, ms, rest)` where `ms` is
`int(match.group(3) or 0)` and `rest` is the capture of the final greedy
`(.*)`, i.e. everything up to the end of the line.  The case analysis
reproduces the regex's backtracking exactly: when a `.` follows the
seconds digits but is not followed by `digits ]`, no shorter choice of
`(\d+)` can rescue the match (a shorter digit group leaves a digit where
`]` is required), so the whole attempt fails. -/
def tryMatchAt : List Char → Option (ℕ × ℕ × ℕ × List Char)
  | [] => none
  | c0 :: r0 =>
    if c0 = '[' then
      let d1 := (takeDigits r0).1
      if d1 = [] then none
      else
        match (takeDigits r0).2 with
        | [] => none
        | c1 :: r2 =>
          if c1 = ':' then
            let d2 := (takeDigits r2).1
            if d2 = [] then none
            else
              match (takeDigits r2).2 with
              | [] => none
              | c3 :: r4 =>
                if c3 = '.' then
                  let d3 := (takeDigits r4).1
                  if d3 = [] then none
                  else
                    match (takeDigits r4).2 with
                    | [] => none
                    | c5 :: r6 =>
                      if c5 = ']' then
                        some (digitsToNat d1, digitsToNat d2, digitsToNat d3, r6)
                      else none
                else if c3 = ']' then some (digitsToNat d1, digitsToNat d2, 0, r4)
                else none
          else none
    else none

/-- The search of `re.finditer` for the leftmost match: try each start
position left to right. -/
def findMatch : List Char → Option (ℕ × ℕ × ℕ × List Char)
  | [] => none
  | c :: cs =>
    match tryMatchAt (c :: cs) with
    | some r => some r
    | none => findMatch cs

/-- The entries contributed by one (already read) line of the file: strip
the line, run `finditer`, and turn each match into `(mm*60 + ss +
ms/1000.0, text.strip())`.  Because the final capture `(.*)` extends to
the end of the line, `finditer` resumes at the end of the line after a
match, so the iteration yields at most one match; the loop body is
therefore applied to the (at most one) leftmost match. -/
def parseLine (line : String) : List Entry :=
  match findMatch (pyStrip line.data) with
  | none => []
  | some (mm, ss, ms, rest) =>
    [((mm : ℚ) * 60 + (ss : ℚ) + (ms : ℚ) / 1000, String.mk (pyStrip rest))]

/-- The entry list accumulated by the line loop, before the final sort:
files are iterated line by line in order. -/
def rawEntries (lines : List String) : List Entry :=
  (lines.map parseLine).flatten

/-- The sort key order of `entries.sort(key=lambda x: x[0])`. -/
def entryLe (a b : Entry) : Prop := a.1 ≤ b.1

instance : DecidableRel entryLe := fun a b => inferInstanceAs (Decidable (a.1 ≤ b.1))

instance : IsTotal Entry entryLe := ⟨fun a b => le_total a.1 b.1⟩

instance : IsTrans Entry entryLe := ⟨fun _ _ _ h1 h2 => le_trans h1 h2⟩

/-- Embedding of `parse_lrc` on a readable source given as its list of lines: collect
the per-line entries, then sort by offset.  Python's `list.sort` is a
stable sort; `List.insertionSort` is stable and produces a sorted
permutation, and a stable sort of a list under a total preorder is
unique, so it denotes the same function. -/
def parse_lrc (lines : List String) : List Entry :=
  List.insertionSort entryLe (rawEntries lines)

/-! ## Player state and transitions

The mutable fields of the `MusicPlayer` object that the engine reads or
writes (`self.playing`, `self.paused`, `self.start_time`,
`self.pause_offset`, `self.pygame_initialized`, `self.lrc`,
`self.lyric_var`), plus `audio_path` reduced to the boolean "a file is
loaded" that `play_pause` guards on.  UI-only effects (button labels,
message boxes) and the external pygame calls (`music.play`,
`music.pause`, `music.stop`, …) are outside the state; the player's
position report `get_pos()` enters as the explicit input `pos`. -/
structure MPState where
  playing : Bool
  paused : Bool
  start_time : ℚ
  pause_offset : ℚ
  pygame_initialized : Bool
  audio_path : Bool
  lrc : List Entry
  lyric_var : String

/-- Embedding of `MusicPlayer.get_play_time` (lines 147–157): the elapsed-position
query.  `pos` is the current `pygame.mixer.music.get_pos()` report in
milliseconds and `now` the current `time.time()` reading. -/
def get_play_time (s : MPState) (pos : ℤ) (now : ℚ) : ℚ :=
  if s.pygame_initialized = false then 0
  else if 0 ≤ pos then (pos : ℚ) / 1000
  else if s.playing = true ∧ s.paused = false then now - s.start_time
  else if s.paused = true then s.pause_offset / 1000
  else 0

/-- Embedding of `MusicPlayer.stop` (lines 138–145): clear the flags, zero the frozen
pause offset, and set the lyric display to the stopped message (the
`pygame.mixer.music.stop()` call is an external player effect). -/
def stop (s : MPState) : MPState :=
  { s with playing := false, paused := false, pause_offset := 0,
           lyric_var := "Playback stopped." }

/-- Embedding of `MusicPlayer.play_pause` (lines 112–136), on the success path of the
external calls: start playback when not playing (re-basing `start_time`
so that the wall-clock fallback resumes from the frozen offset), pause
when playing (capturing `get_pos()` into `pause_offset`), and resume when
paused.  Without a loaded file the method returns without changing
state. -/
def play_pause (s : MPState) (now : ℚ) (pos : ℤ) : MPState :=
  if s.audio_path = false then s
  else if s.playing = false then
    { s with start_time := now - s.pause_offset / 1000,
             playing := true, paused := false }
  else if s.paused = false then
    { s with paused := true, pause_offset := (pos : ℚ) }
  else
    { s with start_time := now - s.pause_offset / 1000, paused := false }

/-! ## `update_loop` — the tick-resolution algorithm

Source (lines 159–170):
```
if self.playing or self.paused:
    t = self.get_play_time()
    text = ""
    for time_s, lyric in self.lrc:
        if time_s <= t + 0.1:
            text = lyric
        else:
            break
    if text:
        self.lyric_var.set(text)
self.root.after(200, self.update_loop)
```
The trailing `after(200, …)` re-schedules the next tick (the scheduler);
one tick is the body above.
-/

/-- The `for … break` scan of one tick, with `acc` the running value of
the local variable `text`: keep overwriting `text` with the entry's lyric
while `time_s ≤ t + 0.1`, stop at the first entry past the bound. -/
def resolveAux (t : ℚ) : List Entry → String → String
  | [], acc => acc
  | (time_s, lyric) :: rest, acc =>
    if time_s ≤ t + 1/10 then resolveAux t rest lyric else acc

/-- The value of the tick's local variable `text` after the scan:
initialised to `""` before the loop. -/
def resolveText (lrc : List Entry) (t : ℚ) : String :=
  resolveAux t lrc ""

/-- The index just past the last entry the scan accepted — the position
the loop stops at (its "cursor", recomputed from scratch each tick). -/
def resolvedIndex (lrc : List Entry) (t : ℚ) : ℕ :=
  (lrc.takeWhile fun e => decide (e.1 ≤ t + 1/10)).length

/-- The emission of one tick that runs with elapsed reading `t`:
`lyric_var.set(text)` is invoked exactly when the resolved `text` is
non-empty (Python's `if text:`). -/
def emitsAt (lrc : List Entry) (t : ℚ) : Option String :=
  if resolveText lrc t = "" then none else some (resolveText lrc t)

/-- The emissions of a run of successive ticks with the given elapsed
readings. -/
def emitTrace (lrc : List Entry) (ts : List ℚ) : List (Option String) :=
  ts.map (emitsAt lrc)

/-- The lyric display after one tick with elapsed reading `t`, given the
previously displayed text `d`: updated to the resolved text when that is
non-empty, otherwise left unchanged. -/
def tickDisplay (lrc : List Entry) (t : ℚ) (d : String) : String :=
  match emitsAt lrc t with
  | some text => text
  | none => d

/-- One full iteration of `update_loop` on the player state: only a
playing or paused session resolves and updates the display. -/
def update_tick (s : MPState) (pos : ℤ) (now : ℚ) : MPState :=
  if s.playing = true ∨ s.paused = true then
    { s with lyric_var := tickDisplay s.lrc (get_play_time s pos now) s.lyric_var }
  else s

/-- The §8 example timeline `[(0, "A"), (2000, "B"), (2000, "C"),
(5000, "D")]` (given there in milliseconds), in the seconds unit the
parsed timeline actually uses. -/
def lrc8 : List Entry := [(0, "A"), (2, "B"), (2, "C"), (5, "D")]

/-! ## Helper lemmas -/

lemma getLastD_cons {α : Type _} (l : List α) : ∀ (a x : α),
    ((a :: l).getLast?).getD x = (l.getLast?).getD a := by
  induction l with
  | nil => intro a x; rfl
  | cons b l ih =>
    intro a x
    rw [List.getLast?_cons_cons, ih b x, ih b a]

/-- Unfolding equation for the scan on a cons cell. -/
lemma resolveAux_cons (t off : ℚ) (ly : String) (rest : List Entry) (acc : String) :
    resolveAux t ((off, ly) :: rest) acc =
      if off ≤ t + 1/10 then resolveAux t rest ly else acc := rfl

/-- On a sorted timeline the `for … break` scan returns the text of the
last entry whose offset is within `t + 0.1`, or the initial accumulator
when there is no such entry. -/
lemma resolveAux_eq_filter_getLast (t : ℚ) :
    ∀ (lrc : List Entry), List.Sorted entryLe lrc → ∀ acc : String,
      resolveAux t lrc acc =
        ((((lrc.filter fun e => decide (e.1 ≤ t + 1/10)).map Prod.snd).getLast?).getD acc) := by
  intro lrc
  induction lrc with
  | nil => intro _ acc; simp [resolveAux]
  | cons e rest ih =>
    intro hs acc
    obtain ⟨he, hrest⟩ := List.sorted_cons.mp hs
    obtain ⟨off, ly⟩ := e
    by_cases h : off ≤ t + 1/10
    · rw [resolveAux_cons, if_pos h, ih hrest ly, List.filter_cons,
        if_pos (by simpa using h), List.map_cons, getLastD_cons]
    · have hnil : (rest.filter fun e => decide (e.1 ≤ t + 1/10)) = [] := by
        rw [List.filter_eq_nil_iff]
        intro x hx
        simp only [decide_eq_true_eq]
        intro hxle
        exact h (le_trans (he x hx) hxle)
      rw [resolveAux_cons, if_neg h, List.filter_cons, if_neg (by simpa using h), hnil]
      rfl

/-- Restatement of `resolveText` in terms of the last qualifying entry. -/
lemma resolveText_eq_filter_getLast (lrc : List Entry) (t : ℚ)
    (hs : List.Sorted entryLe lrc) :
    resolveText lrc t =
      ((((lrc.filter fun e => decide (e.1 ≤ t + 1/10)).map Prod.snd).getLast?).getD "") :=
  resolveAux_eq_filter_getLast t lrc hs ""

lemma one_le_length_of_ne_empty {s : String} (h : s ≠ "") : 1 ≤ s.length := by
  rcases s with ⟨l⟩
  cases l with
  | nil => simp at h
  | cons c cs => simp [String.length]

/-! ## C1 — the tick presents the last entry within tolerance -/

/-- C1: for a tick firing on a (sorted, as the parser produces) timeline
with elapsed reading `t`, when the last timeline entry whose
`start_offset` is at most `t + 0.1` exists and carries non-empty text,
the text presented is exactly that entry's text — among entries tied at
one `start_offset` the last one in timeline order is the one presented
(so on the §8 timeline at `t = 2000 ms` the tick presents `"C"`, never
`"B"`). -/
theorem claim1_tick_presents_last_qualifying (lrc : List Entry) (t : ℚ) (d : String)
    (e : Entry) (hs : List.Sorted entryLe lrc)
    (hlast : (lrc.filter fun x => decide (x.1 ≤ t + 1/10)).getLast? = some e)
    (hne : 1 ≤ e.2.length) :
    tickDisplay lrc t d = e.2 := by
  have htext : resolveText lrc t = e.2 := by
    rw [resolveText_eq_filter_getLast lrc t hs, List.getLast?_map, hlast]
    rfl
  have hne' : e.2 ≠ "" := by
    intro hcontra
    rw [hcontra] at hne
    simp [String.length] at hne
  simp [tickDisplay, emitsAt, htext, hne']

/-- Witness for C1: the §8 timeline at `t = 2000 ms` — the last entry
within tolerance is the tied pair's second member `(2, "C")`, and the
tick presents `"C"` (even though `"B"` was displayed before). -/
theorem claim1_witness :
    (List.Sorted entryLe lrc8 ∧
      (lrc8.filter fun x => decide (x.1 ≤ (2 : ℚ) + 1/10)).getLast? = some ((2 : ℚ), "C") ∧
      1 ≤ "C".length) ∧
    tickDisplay lrc8 2 "B" = "C" := by
  have hs : List.Sorted entryLe lrc8 := by
    norm_num [lrc8, List.sorted_cons, entryLe]
  have hlast : (lrc8.filter fun x => decide (x.1 ≤ (2 : ℚ) + 1/10)).getLast? =
      some ((2 : ℚ), "C") := by
    norm_num [lrc8, List.filter_cons]
  have hne : 1 ≤ "C".length := by decide
  exact ⟨⟨hs, hlast, hne⟩, claim1_tick_presents_last_qualifying lrc8 2 "B" (2, "C") hs hlast hne⟩

/-! ## C3 — the resolved position under decreasing clock readings -/

/-- Counterexample to C3: a single Playing session (no stop, no timeline
replacement), two consecutive ticks whose position reports are 1900 ms
then 1850 ms — a 50 ms backwards jitter.  The first tick stops the scan
after three entries and displays `"C"`; the second resolves only one
entry and rewinds the display to `"A"`: the resolved position moved to an
earlier entry. -/
theorem claim3_counterexample :
    (update_tick ⟨true, false, 0, 0, true, true, lrc8, "x"⟩ 1900 0).lyric_var = "C" ∧
    (update_tick (update_tick ⟨true, false, 0, 0, true, true, lrc8, "x"⟩ 1900 0) 1850 0).lyric_var
      = "A" ∧
    resolvedIndex lrc8 (19/10) = 3 ∧
    resolvedIndex lrc8 (37/20) = 1 ∧
    (19/10 : ℚ) - 37/20 = 1/20 := by
  refine ⟨?_, ?_, ?_, ?_, by norm_num⟩ <;>
    norm_num [update_tick, get_play_time, tickDisplay, emitsAt, resolveText, resolveAux,
      resolvedIndex, lrc8, List.takeWhile_cons] <;> decide

/-- C3 amended: the code keeps no cursor between ticks — each tick
recomputes the position from the elapsed reading alone.  The resolved
position is monotone in the reading, so it never regresses while the
readings are non-decreasing; but any decrease of the reading (however
small) that crosses an entry boundary moves the resolved position back
(there is no jitter guard). -/
theorem claim3_amended_monotone (lrc : List Entry) (t₁ t₂ : ℚ) (h : t₁ ≤ t₂) :
    resolvedIndex lrc t₁ ≤ resolvedIndex lrc t₂ := by
  unfold resolvedIndex
  induction lrc with
  | nil => simp
  | cons e rest ih =>
    by_cases h1 : e.1 ≤ t₁ + 1/10
    · have h2 : e.1 ≤ t₂ + 1/10 := le_trans h1 (by linarith)
      rw [List.takeWhile_cons, List.takeWhile_cons, if_pos (by simpa using h1),
        if_pos (by simpa using h2)]
      simp only [List.length_cons]
      exact Nat.succ_le_succ ih
    · rw [List.takeWhile_cons, if_neg (by simpa using h1)]
      simp

/-- Witness for C3 amended: readings 1000 ms then 2000 ms on the §8
timeline — the resolved position advances from 1 to 3. -/
theorem claim3_amended_witness :
    ((1 : ℚ) ≤ 2 ∧ resolvedIndex lrc8 1 ≤ resolvedIndex lrc8 2) ∧
    (resolvedIndex lrc8 1 = 1 ∧ resolvedIndex lrc8 2 = 3) := by
  constructor
  · exact ⟨by norm_num, claim3_amended_monotone lrc8 1 2 (by norm_num)⟩
  · constructor <;> norm_num [resolvedIndex, lrc8, List.takeWhile_cons]

/-! ## C2 — duplicate emissions on repeated ticks -/

/-- Counterexample to C2: the code keeps no `last_emitted` state.  On the
§8 timeline, the ticks with readings 0 ms and 1000 ms both resolve to the
entry `"A"`, yet the second tick still invokes the presentation sink
(`lyric_var.set`) with `"A"`.  The full trace of emissions for readings
0, 1000, 2000, 2000, 6000 ms is `"A", "A", "C", "C", "D"` — five sink
invocations, not the claimed `"A"`, nothing, `"C"`, nothing, `"D"`. -/
theorem claim2_counterexample :
    (resolveText lrc8 0 = "A" ∧ resolveText lrc8 1 = "A" ∧ emitsAt lrc8 1 = some "A") ∧
    emitTrace lrc8 [0, 1, 2, 2, 6] =
      [some "A", some "A", some "C", some "C", some "D"] := by
  refine ⟨⟨?_, ?_, ?_⟩, ?_⟩ <;>
    (norm_num [emitTrace, emitsAt, resolveText, resolveAux, lrc8]; all_goals decide)

/-- C2 amended: a tick emits whenever its resolved text is non-empty,
regardless of the previous emission — consecutive ticks resolving to the
same entry re-emit the same text (the duplicate carries identical text,
so the displayed value still never flickers).  On the §8 timeline with
readings 0, 1000, 2000, 2000, 6000 ms the ticks emit
`"A", "A", "C", "C", "D"`; `"B"` is never emitted at any reading. -/
theorem claim2_amended_trace :
    emitTrace lrc8 [0, 1, 2, 2, 6] =
      [some "A", some "A", some "C", some "C", some "D"] ∧
    ∀ t : ℚ, emitsAt lrc8 t ∈ [none, some "A", some "C", some "D"] := by
  constructor
  · norm_num [emitTrace, emitsAt, resolveText, resolveAux, lrc8]
    decide
  · intro t
    simp only [emitsAt, resolveText, resolveAux, lrc8]
    split_ifs <;> simp_all

/-! ## C4 — the elapsed-position query -/

/-- The elapsed-position rule in the words of the specification (§4.2):
the player's native report is authoritative whenever it is non-negative;
otherwise wall-clock now minus the play start reference while Playing;
otherwise the frozen pause value while Paused; otherwise 0.  Stated as a
separate reference definition to compare `get_play_time` against. -/
def elapsedSpec (playing paused : Bool) (pos : ℤ) (now startRef frozenMs : ℚ) : ℚ :=
  if 0 ≤ pos then (pos : ℚ) / 1000
  else if playing = true ∧ paused = false then now - startRef
  else if paused = true then frozenMs / 1000
  else 0

/-- C4: once the player backend is initialized, `get_play_time` is total
(it is a function into `ℚ` — every flag combination and every reported
position, including negative failure reports, falls through to a
returned value) and agrees with the specification's precedence:
native report when non-negative, wall-clock difference while Playing,
frozen pause value while Paused, 0 otherwise. -/
theorem claim4_get_play_time_total (s : MPState) (pos : ℤ) (now : ℚ)
    (h : s.pygame_initialized = true) :
    get_play_time s pos now = elapsedSpec s.playing s.paused pos now s.start_time s.pause_offset := by
  simp [get_play_time, elapsedSpec, h]

/-- Witness for C4: a paused player with a failed (negative) native
report returns the frozen pause value. -/
theorem claim4_witness :
    (MPState.pygame_initialized ⟨true, true, 4, 2500, true, true, [], "x"⟩ = true) ∧
    get_play_time ⟨true, true, 4, 2500, true, true, [], "x"⟩ (-1) 9 = 5/2 := by
  refine ⟨rfl, ?_⟩
  rw [claim4_get_play_time_total ⟨true, true, 4, 2500, true, true, [], "x"⟩ (-1) 9 rfl]
  norm_num [elapsedSpec]

/-! ## C5 — stop resets elapsed; restart re-emits the first entry -/

/-- C5: after `stop()` the elapsed position is 0 regardless of the prior
flags (the stopped player reports no native position, `pos < 0`), a
following `play()` starts the session with elapsed 0 (the wall-clock
reference is re-based to the call instant since the frozen offset was
zeroed), and the first tick of the restarted session emits the
timeline's first entry `"A"` again — the emission does not depend on
what was displayed before the stop. -/
theorem claim5_stop_restart (s : MPState) (pos : ℤ) (now : ℚ)
    (hpos : pos < 0) (haudio : s.audio_path = true)
    (hinit : s.pygame_initialized = true) (hlrc : s.lrc = lrc8) :
    get_play_time (stop s) pos now = 0 ∧
    get_play_time (play_pause (stop s) now pos) pos now = 0 ∧
    emitsAt lrc8 (get_play_time (play_pause (stop s) now pos) pos now) = some "A" ∧
    (update_tick (play_pause (stop s) now pos) pos now).lyric_var = "A" := by
  have hpos' : ¬ (0 ≤ pos) := by omega
  have h1 : get_play_time (stop s) pos now = 0 := by
    simp [stop, get_play_time, hinit, hpos']
  have hplay : play_pause (stop s) now pos =
      { stop s with start_time := now - 0 / 1000, playing := true, paused := false } := by
    simp [play_pause, stop, haudio]
  have h2 : get_play_time (play_pause (stop s) now pos) pos now = 0 := by
    rw [hplay]
    simp [get_play_time, stop, hinit, hpos']
  have hA : emitsAt lrc8 0 = some "A" := by
    norm_num [emitsAt, resolveText, resolveAux, lrc8]
    decide
  have h3 : emitsAt lrc8 (get_play_time (play_pause (stop s) now pos) pos now) = some "A" := by
    rw [h2]; exact hA
  refine ⟨h1, h2, h3, ?_⟩
  have hplaying : (play_pause (stop s) now pos).playing = true := by
    simp [play_pause, stop, haudio]
  have hlrc2 : (play_pause (stop s) now pos).lrc = lrc8 := by
    simp [play_pause, stop, haudio, hlrc]
  simp only [update_tick]
  rw [if_pos (Or.inl hplaying)]
  simp only [hlrc2, h2, tickDisplay, hA]

/-- Witness for C5: a concrete previously-playing player with non-zero
clock fields, stopped and restarted at `now = 7` with the player
reporting `get_pos() = -1`. -/
theorem claim5_witness :
    ((-1 : ℤ) < 0 ∧
      MPState.audio_path ⟨true, false, 5, 3000, true, true, lrc8, "D"⟩ = true ∧
      MPState.pygame_initialized ⟨true, false, 5, 3000, true, true, lrc8, "D"⟩ = true ∧
      MPState.lrc ⟨true, false, 5, 3000, true, true, lrc8, "D"⟩ = lrc8) ∧
    get_play_time (stop ⟨true, false, 5, 3000, true, true, lrc8, "D"⟩) (-1) 7 = 0 ∧
    get_play_time (play_pause (stop ⟨true, false, 5, 3000, true, true, lrc8, "D"⟩) 7 (-1)) (-1) 7
      = 0 ∧
    emitsAt lrc8
      (get_play_time (play_pause (stop ⟨true, false, 5, 3000, true, true, lrc8, "D"⟩) 7 (-1)) (-1) 7)
      = some "A" ∧
    (update_tick (play_pause (stop ⟨true, false, 5, 3000, true, true, lrc8, "D"⟩) 7 (-1)) (-1) 7).lyric_var
      = "A" :=
  ⟨⟨by norm_num, rfl, rfl, rfl⟩,
    claim5_stop_restart ⟨true, false, 5, 3000, true, true, lrc8, "D"⟩ (-1) 7
      (by norm_num) rfl rfl rfl⟩

/-! ## C8 — sortedness and stability of the constructed timeline -/

/-- Inserting an entry whose offset is `k` into a list: the entries of
offset `k` gain the inserted one at the front (every entry the insertion
walks past has offset strictly below `k`). -/
lemma filter_orderedInsert_eq_key (k : ℚ) (a : Entry) (ha : a.1 = k) :
    ∀ l : List Entry,
      (List.orderedInsert entryLe a l).filter (fun e => decide (e.1 = k)) =
        a :: l.filter (fun e => decide (e.1 = k)) := by
  intro l
  induction l with
  | nil => simp [List.orderedInsert, ha]
  | cons b l ih =>
    by_cases h : entryLe a b
    · simp [List.orderedInsert, h, List.filter_cons, ha]
    · have hb : ¬ (b.1 = k) := by
        unfold entryLe at h
        push_neg at h
        rw [← ha]
        exact ne_of_lt h
      simp only [List.orderedInsert, if_neg h, List.filter_cons, decide_eq_true_eq,
        if_neg hb, ih]

/-- Inserting an entry whose offset is not `k` leaves the entries of
offset `k` untouched. -/
lemma filter_orderedInsert_ne_key (k : ℚ) (a : Entry) (ha : ¬ a.1 = k) :
    ∀ l : List Entry,
      (List.orderedInsert entryLe a l).filter (fun e => decide (e.1 = k)) =
        l.filter (fun e => decide (e.1 = k)) := by
  intro l
  induction l with
  | nil => simp [List.orderedInsert, ha]
  | cons b l ih =>
    by_cases h : entryLe a b
    · simp [List.orderedInsert, h, List.filter_cons, ha]
    · simp only [List.orderedInsert, if_neg h, List.filter_cons, ih]

/-- Stability of the sort: for each offset `k`, the sorted list carries
the entries of offset `k` in their original relative order. -/
lemma filter_insertionSort_eq (k : ℚ) :
    ∀ l : List Entry,
      (List.insertionSort entryLe l).filter (fun e => decide (e.1 = k)) =
        l.filter (fun e => decide (e.1 = k)) := by
  intro l
  induction l with
  | nil => rfl
  | cons a l ih =>
    show (List.orderedInsert entryLe a (List.insertionSort entryLe l)).filter
        (fun e => decide (e.1 = k)) = _
    by_cases ha : a.1 = k
    · rw [filter_orderedInsert_eq_key k a ha, ih, List.filter_cons,
        if_pos (by simpa using ha)]
    · rw [filter_orderedInsert_ne_key k a ha, ih, List.filter_cons,
        if_neg (by simpa using ha)]

/-- C8: for every caption source, the constructed timeline is
non-decreasing in `start_offset`, and for each offset value the entries
carrying it appear in their original input order (the sort is stable). -/
theorem claim8_sorted_stable (lines : List String) :
    List.Sorted entryLe (parse_lrc lines) ∧
    ∀ k : ℚ, (parse_lrc lines).filter (fun e => decide (e.1 = k)) =
      (rawEntries lines).filter (fun e => decide (e.1 = k)) :=
  ⟨List.sorted_insertionSort entryLe (rawEntries lines),
    fun k => filter_insertionSort_eq k (rawEntries lines)⟩

/-! ## C9 — malformed lines are skipped, never fatal -/

/-- C9: a line that contributes no entries (no valid timestamp marker)
is skipped silently — deleting it from the source leaves the parse of
every surrounding source unchanged — and a source with no valid markers
at all yields the empty timeline rather than an error (the embedding is
a total function; the only failure path of the Python code is the
`open` call on an unreadable file, which lies outside the line model). -/
theorem claim9_malformed_lines_skipped :
    (∀ (pre post : List String) (line : String), parseLine line = [] →
      parse_lrc (pre ++ line :: post) = parse_lrc (pre ++ post)) ∧
    parse_lrc ["no markers here", "12:34 missing brackets", ""] = [] := by
  constructor
  · intro pre post line h
    unfold parse_lrc rawEntries
    rw [List.map_append, List.map_append, List.map_cons, h]
    simp
  · simp [parse_lrc, rawEntries, parseLine, findMatch, tryMatchAt, takeDigits, digitsToNat,
      pyStrip, List.insertionSort, entryLe, List.takeWhile, List.dropWhile]

/-- Witness for C9: dropping the marker-free middle line of a concrete
three-line source does not change the parse. -/
theorem claim9_witness :
    parseLine "junk" = [] ∧
    parse_lrc (["[0:01]A"] ++ "junk" :: ["[0:02]B"]) = parse_lrc (["[0:01]A"] ++ ["[0:02]B"]) := by
  have h : parseLine "junk" = [] := by
    simp [parseLine, findMatch, tryMatchAt, takeDigits, digitsToNat, pyStrip,
      List.takeWhile, List.dropWhile]
  exact ⟨h, claim9_malformed_lines_skipped.1 ["[0:01]A"] ["[0:02]B"] "junk" h⟩

/-! ## Marker-shape lemmas for the parser (C6, C7) -/

lemma takeWhile_digits_append (c : Char) (rest : List Char) (hc : c.isDigit = false) :
    ∀ ds : List Char, (∀ x ∈ ds, x.isDigit = true) →
      (ds ++ c :: rest).takeWhile Char.isDigit = ds := by
  intro ds
  induction ds with
  | nil => intro _; simp [List.takeWhile_cons, hc]
  | cons d ds ih =>
    intro hds
    have hd : d.isDigit = true := hds d (List.mem_cons_self d ds)
    have hds' : ∀ x ∈ ds, x.isDigit = true := fun x hx => hds x (List.mem_cons_of_mem d hx)
    simp [List.takeWhile_cons, hd, ih hds']

lemma dropWhile_digits_append (c : Char) (rest : List Char) (hc : c.isDigit = false) :
    ∀ ds : List Char, (∀ x ∈ ds, x.isDigit = true) →
      (ds ++ c :: rest).dropWhile Char.isDigit = c :: rest := by
  intro ds
  induction ds with
  | nil => intro _; simp [List.dropWhile_cons, hc]
  | cons d ds ih =>
    intro hds
    have hd : d.isDigit = true := hds d (List.mem_cons_self d ds)
    have hds' : ∀ x ∈ ds, x.isDigit = true := fun x hx => hds x (List.mem_cons_of_mem d hx)
    simp [List.dropWhile_cons, hd, ih hds']

/-- A greedy `\d+` stops exactly at the first non-digit. -/
lemma takeDigits_append (ds : List Char) (c : Char) (rest : List Char)
    (hds : ∀ x ∈ ds, x.isDigit = true) (hc : c.isDigit = false) :
    takeDigits (ds ++ c :: rest) = (ds, c :: rest) := by
  unfold takeDigits
  rw [takeWhile_digits_append c rest hc ds hds, dropWhile_digits_append c rest hc ds hds]

/-- Applying `str.strip` leaves a line that starts with `[` and ends with `]`
unchanged. -/
lemma pyStrip_bracket (mid : List Char) :
    pyStrip ('[' :: (mid ++ [']'])) = '[' :: (mid ++ [']']) := by
  unfold pyStrip
  have h1 : ('[' : Char).isWhitespace = false := by decide
  have h2 : (']' : Char).isWhitespace = false := by decide
  rw [List.dropWhile_cons, h1]
  simp only [Bool.false_eq_true, if_false]
  rw [show ('[' :: (mid ++ [']'])).reverse = ']' :: (mid.reverse ++ ['[']) from by simp]
  rw [List.dropWhile_cons, h2]
  simp only [Bool.false_eq_true, if_false]
  simp

/-- The regex accepts `[d₁:d₂.d₃]` at the head of the line, capturing the
three digit groups and the rest of the line. -/
lemma tryMatchAt_marker_frac (d1 d2 d3 rest : List Char)
    (h1 : d1 ≠ []) (h2 : d2 ≠ []) (h3 : d3 ≠ [])
    (hd1 : ∀ c ∈ d1, c.isDigit = true) (hd2 : ∀ c ∈ d2, c.isDigit = true)
    (hd3 : ∀ c ∈ d3, c.isDigit = true) :
    tryMatchAt ('[' :: (d1 ++ ':' :: (d2 ++ '.' :: (d3 ++ ']' :: rest)))) =
      some (digitsToNat d1, digitsToNat d2, digitsToNat d3, rest) := by
  have t1 := takeDigits_append d1 ':' (d2 ++ '.' :: (d3 ++ ']' :: rest)) hd1 (by decide)
  have t2 := takeDigits_append d2 '.' (d3 ++ ']' :: rest) hd2 (by decide)
  have t3 := takeDigits_append d3 ']' rest hd3 (by decide)
  simp [tryMatchAt, t1, t2, t3, h1, h2, h3]

/-- The regex accepts `[d₁:d₂]` (no fractional group) at the head of the
line; the missing group contributes `ms = 0`. -/
lemma tryMatchAt_marker_nofrac (d1 d2 rest : List Char)
    (h1 : d1 ≠ []) (h2 : d2 ≠ [])
    (hd1 : ∀ c ∈ d1, c.isDigit = true) (hd2 : ∀ c ∈ d2, c.isDigit = true) :
    tryMatchAt ('[' :: (d1 ++ ':' :: (d2 ++ ']' :: rest))) =
      some (digitsToNat d1, digitsToNat d2, 0, rest) := by
  have t1 := takeDigits_append d1 ':' (d2 ++ ']' :: rest) hd1 (by decide)
  have t2 := takeDigits_append d2 ']' rest hd2 (by decide)
  simp [tryMatchAt, t1, t2, h1, h2]

/-! ## C6 — the offset arithmetic of a parsed marker -/

/-- Counterexample to C6: the marker `[1:02.5]` does not yield 62.5 s.
The code reads the fractional digits as an integer and divides by 1000
(`int(match.group(3) or 0)` then `ms/1000.0`), so `.5` contributes
5/1000 s and the entry's offset is 62.005 s, strictly below the claimed
62.5 s. -/
theorem claim6_counterexample :
    parse_lrc ["[1:02.5]"] = [((12401/200 : ℚ), "")] ∧
    (12401/200 : ℚ) = 62 + 5/1000 ∧
    (12401/200 : ℚ) < 125/2 := by
  refine ⟨?_, by norm_num, by norm_num⟩
  simp [parse_lrc, rawEntries, parseLine, findMatch, tryMatchAt, takeDigits, digitsToNat,
    pyStrip, List.insertionSort, entryLe, List.takeWhile, List.dropWhile]
  norm_num

/-- C6 amended: for every timestamp marker `[minutes:seconds.fraction]`
the parsed offset is `minutes*60 + seconds + fraction/1000` where
`fraction` is the fractional digit string read as an integer (so
`[1:02.5]` yields 62.005 s, not 62.5 s), and a marker with no fractional
part yields a fractional contribution of exactly 0. -/
theorem claim6_amended_offset_formula (d1 d2 d3 : List Char)
    (h1 : d1 ≠ []) (h2 : d2 ≠ []) (h3 : d3 ≠ [])
    (hd1 : ∀ c ∈ d1, c.isDigit = true) (hd2 : ∀ c ∈ d2, c.isDigit = true)
    (hd3 : ∀ c ∈ d3, c.isDigit = true) :
    parseLine (String.mk ('[' :: (d1 ++ ':' :: (d2 ++ '.' :: (d3 ++ [']']))))) =
      [((digitsToNat d1 : ℚ) * 60 + (digitsToNat d2 : ℚ) + (digitsToNat d3 : ℚ) / 1000, "")] ∧
    parseLine (String.mk ('[' :: (d1 ++ ':' :: (d2 ++ [']'])))) =
      [((digitsToNat d1 : ℚ) * 60 + (digitsToNat d2 : ℚ) + (0 : ℚ) / 1000, "")] := by
  constructor
  · unfold parseLine
    rw [show (String.mk ('[' :: (d1 ++ ':' :: (d2 ++ '.' :: (d3 ++ [']']))))).data =
        '[' :: ((d1 ++ ':' :: (d2 ++ '.' :: d3)) ++ [']']) from by simp]
    rw [pyStrip_bracket]
    rw [show '[' :: ((d1 ++ ':' :: (d2 ++ '.' :: d3)) ++ [']']) =
        '[' :: (d1 ++ ':' :: (d2 ++ '.' :: (d3 ++ ']' :: []))) from by simp]
    rw [show findMatch ('[' :: (d1 ++ ':' :: (d2 ++ '.' :: (d3 ++ ']' :: [])))) =
        some (digitsToNat d1, digitsToNat d2, digitsToNat d3, []) from by
      simp [findMatch, tryMatchAt_marker_frac d1 d2 d3 [] h1 h2 h3 hd1 hd2 hd3]]
    rfl
  · unfold parseLine
    rw [show (String.mk ('[' :: (d1 ++ ':' :: (d2 ++ [']'])))).data =
        '[' :: ((d1 ++ ':' :: d2) ++ [']']) from by simp]
    rw [pyStrip_bracket]
    rw [show '[' :: ((d1 ++ ':' :: d2) ++ [']']) =
        '[' :: (d1 ++ ':' :: (d2 ++ ']' :: [])) from by simp]
    rw [show findMatch ('[' :: (d1 ++ ':' :: (d2 ++ ']' :: []))) =
        some (digitsToNat d1, digitsToNat d2, 0, []) from by
      simp [findMatch, tryMatchAt_marker_nofrac d1 d2 [] h1 h2 hd1 hd2]]
    simp [pyStrip]

/-- Witness for C6 amended: `[1:02.5]` yields 62.005 s and `[1:02]`
yields 62 s. -/
theorem claim6_amended_witness :
    ((['1'] : List Char) ≠ [] ∧ (['0', '2'] : List Char) ≠ [] ∧ (['5'] : List Char) ≠ [] ∧
      (∀ c ∈ (['1'] : List Char), c.isDigit = true) ∧
      (∀ c ∈ (['0', '2'] : List Char), c.isDigit = true) ∧
      (∀ c ∈ (['5'] : List Char), c.isDigit = true)) ∧
    parseLine (String.mk ('[' :: (['1'] ++ ':' :: (['0', '2'] ++ '.' :: (['5'] ++ [']']))))) =
      [((digitsToNat ['1'] : ℚ) * 60 + (digitsToNat ['0', '2'] : ℚ) +
        (digitsToNat ['5'] : ℚ) / 1000, "")] ∧
    parseLine (String.mk ('[' :: (['1'] ++ ':' :: (['0', '2'] ++ [']'])))) =
      [((digitsToNat ['1'] : ℚ) * 60 + (digitsToNat ['0', '2'] : ℚ) + (0 : ℚ) / 1000, "")] := by
  have h := claim6_amended_offset_formula ['1'] ['0', '2'] ['5']
    (by decide) (by decide) (by decide) (by decide) (by decide) (by decide)
  exact ⟨⟨by decide, by decide, by decide, by decide, by decide, by decide⟩, h.1, h.2⟩

/-! ## C7 — entries produced by a line with several markers -/

/-- Counterexample to C7: the line `[0:01][0:02]hello` yields one entry,
not two.  The regex's trailing greedy `(.*)` swallows the remainder of
the line including the second marker, so the single entry is
`(1 s, "[0:02]hello")` instead of the claimed `(1 s, "hello")` and
`(2 s, "hello")`. -/
theorem claim7_counterexample :
    (parse_lrc ["[0:01][0:02]hello"]).length = 1 ∧
    parse_lrc ["[0:01][0:02]hello"] = [((1 : ℚ), "[0:02]hello")] := by
  have h : parse_lrc ["[0:01][0:02]hello"] = [((1 : ℚ), "[0:02]hello")] := by
    simp [parse_lrc, rawEntries, parseLine, findMatch, tryMatchAt, takeDigits, digitsToNat,
      pyStrip, List.insertionSort, entryLe, List.takeWhile, List.dropWhile]
  exact ⟨by rw [h]; rfl, h⟩

/-- C7 amended: a caption line never yields more than one entry; a line
containing one or more markers yields exactly one entry — built from the
leftmost marker, with the entire remainder of the line (further markers
included) as its text. -/
theorem claim7_amended_single_entry :
    (∀ line : String, (parseLine line).length ≤ 1) ∧
    parse_lrc ["[0:01][0:02]hello"] = [((1 : ℚ), "[0:02]hello")] := by
  constructor
  · intro line
    unfold parseLine
    cases findMatch (pyStrip line.data) with
    | none => simp
    | some r => obtain ⟨mm, ss, ms, rest⟩ := r; simp
  · simp [parse_lrc, rawEntries, parseLine, findMatch, tryMatchAt, takeDigits, digitsToNat,
      pyStrip, List.insertionSort, entryLe, List.takeWhile, List.dropWhile]

/-! ## C10 — the display is never set to the empty string -/

/-- C10: a tick either leaves the displayed text unchanged or sets it to
a non-empty string — never to `""`.  The parser does produce
entries with empty text (a marker with no trailing caption, e.g.
`[0:05]`); such an entry is resolved (the scan advances past it) but its
emission is suppressed and the previous display survives, and a tick
whose reading lies before the first entry (`t + 0.1 <` every offset)
emits nothing and also leaves the display unchanged. -/
theorem claim10_never_empty_display :
    (∀ (lrc : List Entry) (t : ℚ) (d : String),
      tickDisplay lrc t d = d ∨ 1 ≤ (tickDisplay lrc t d).length) ∧
    parse_lrc ["[0:05]"] = [((5 : ℚ), "")] ∧
    resolvedIndex [((5 : ℚ), "")] 5 = 1 ∧
    tickDisplay [((5 : ℚ), "")] 5 "prev" = "prev" ∧
    tickDisplay [((5 : ℚ), "X")] 0 "prev" = "prev" ∧
    emitsAt [((5 : ℚ), "X")] 0 = none := by
  refine ⟨?_, ?_, ?_, ?_, ?_, ?_⟩
  · intro lrc t d
    unfold tickDisplay emitsAt
    by_cases h : resolveText lrc t = ""
    · rw [if_pos h]
      left
      rfl
    · rw [if_neg h]
      right
      exact one_le_length_of_ne_empty h
  · simp [parse_lrc, rawEntries, parseLine, findMatch, tryMatchAt, takeDigits, digitsToNat,
      pyStrip, List.insertionSort, entryLe, List.takeWhile, List.dropWhile]
  · norm_num [resolvedIndex, List.takeWhile_cons]
  · norm_num [tickDisplay, emitsAt, resolveText, resolveAux]
  · norm_num [tickDisplay, emitsAt, resolveText, resolveAux]
  · norm_num [emitsAt, resolveText, resolveAux]

end MusicPlayer
